import Mathlib

/-!
Shallow embedding of `werobot/client.py` (the WeRoBot WeChat API client):
the token cache (`Client.token`), the generic request plumbing
(`Client.request` / `check_error`) and the payment signing layer
(`_pay_sign_dict`, `create_js_pay_package`, `create_js_pay_params`,
`create_native_pay_url`, `pay_orderquery`), together with theorems that
settle the specification claims about them.

Python dictionaries are modelled as association lists in insertion order;
clock reads (`time.time()`), the generated nonce (`generate_token()`) and
HTTP responses are passed in as explicit arguments; network dispatch is
modelled by returning the data that would be sent.
-/

set_option maxRecDepth 100000

namespace WeRobot

/-- Values that appear in the Python parameter dictionaries of `client.py`:
`None`, integers (timestamps) and strings. -/
inductive PyVal where
  | none
  | int (n : Int)
  | str (s : String)
deriving DecidableEq, Repr

/-- Python `str()` of a parameter value, as used in
`"%s=%s" % (str(p[0]), str(p[1]))`. -/
def pyString : PyVal → String
  | .none => "None"
  | .int n => toString n
  | .str s => s

/-- The `PyVal` stored when an optional attribute (e.g. `self.pay_partner_id`)
is written into a dictionary: `None` when the attribute is unset. -/
def pyOfOpt : Option String → PyVal
  | Option.none => PyVal.none
  | Option.some s => PyVal.str s

/-- Python truthiness of an optional string attribute: `None` and the empty
string are falsy. -/
def optTruthy : Option String → Bool
  | Option.none => false
  | Option.some s => s ≠ ""

/-- Byte-wise lexicographic comparison of character lists, the order Python 2
uses on the byte strings that serve as dictionary keys. -/
def cmpChars : List Char → List Char → Ordering
  | [], [] => .eq
  | [], _ :: _ => .lt
  | _ :: _, [] => .gt
  | a :: as, b :: bs =>
    if a.toNat < b.toNat then .lt
    else if b.toNat < a.toNat then .gt
    else cmpChars as bs

/-- Python 2 string comparison. -/
def cmpStr (a b : String) : Ordering := cmpChars a.data b.data

/-- Python 2 comparison of the values that can appear in a parameter pair:
`None` is smaller than everything, and numbers are smaller than strings
(cross-type comparison by type name). -/
def cmpVal : PyVal → PyVal → Ordering
  | .none, .none => .eq
  | .none, _ => .lt
  | _, .none => .gt
  | .int m, .int n => if m < n then .lt else if n < m then .gt else .eq
  | .int _, .str _ => .lt
  | .str _, .int _ => .gt
  | .str a, .str b => cmpStr a b

/-- Python 2 tuple comparison on `(key, value)` pairs, as used by
`list.sort()` in `_pay_sign_dict` and `create_js_pay_package`. -/
def cmpPair (p q : String × PyVal) : Ordering :=
  match cmpStr p.1 q.1 with
  | .eq => cmpVal p.2 q.2
  | o => o

/-- The boolean `≤` derived from `cmpPair`. -/
def pairLe (p q : String × PyVal) : Bool :=
  match cmpPair p q with
  | .gt => false
  | _ => true

/-- Python `list.sort()` on a list of `(key, value)` pairs. Python's sort is
a stable sort by the total preorder `pairLe`; every stable sort computes the
same list, so it is embedded as a structurally recursive insertion sort. -/
def sortPairs (l : List (String × PyVal)) : List (String × PyVal) :=
  List.insertionSort (fun p q => pairLe p q = true) l

/-- `'&'.join(["%s=%s" % (str(p[0]), str(p[1])) for p in l])`. -/
def joinPairs (l : List (String × PyVal)) : String :=
  String.intercalate "&" (l.map fun p => p.1 ++ "=" ++ pyString p.2)

/-- Python dictionaries with string keys, modelled as association lists in
insertion order; the first occurrence of a key holds its value. -/
abbrev PyDict := List (String × PyVal)

/-- `d[k] = v`: replace the value in place if the key exists, append
otherwise. -/
def dictUpdate : PyDict → String → PyVal → PyDict
  | [], k, v => [(k, v)]
  | (k', v') :: rest, k, v =>
    if k' = k then (k, v) :: rest else (k', v') :: dictUpdate rest k v

/-- `d.get(k)` / `d[k]` lookup. -/
def dictLookup : PyDict → String → Option PyVal
  | [], _ => Option.none
  | (k', v') :: rest, k => if k' = k then Option.some v' else dictLookup rest k

/-- `k in d`. -/
def dictContains (d : PyDict) (k : String) : Bool := (dictLookup d k).isSome

/-- `d.setdefault(k, v)`. -/
def dictSetdefault (d : PyDict) (k : String) (v : PyVal) : PyDict :=
  if dictContains d k then d else d ++ [(k, v)]

/-- `del d[k]`. -/
def dictDel (d : PyDict) (k : String) : PyDict := d.filter (fun p => p.1 ≠ k)

/-- `dict(pairs)`: build a dictionary from a pair list, later occurrences of
a key overwriting earlier ones. -/
def dictOf (l : List (String × PyVal)) : PyDict :=
  l.foldl (fun d p => dictUpdate d p.1 p.2) []

/-- UTF-8 encoding of one character (Python 2 `str` objects are byte
strings; the embedding's strings are hashed through their UTF-8 bytes). -/
def charUtf8 (c : Char) : List Nat :=
  let n := c.toNat
  if n < 128 then [n]
  else if n < 2048 then [192 + n / 64, 128 + n % 64]
  else if n < 65536 then [224 + n / 4096, 128 + n / 64 % 64, 128 + n % 64]
  else [240 + n / 262144, 128 + n / 4096 % 64, 128 + n / 64 % 64, 128 + n % 64]

/-- The byte string of a text string. -/
def strBytes (s : String) : List Nat :=
  s.data.foldr (fun c acc => charUtf8 c ++ acc) []

/-- Lowercase hexadecimal digit. -/
def hexChar (n : Nat) : Char :=
  if n < 10 then Char.ofNat (48 + n) else Char.ofNat (87 + n)

/-- Uppercase hexadecimal digit (used by `urllib.quote`'s percent-escapes). -/
def hexCharUpper (n : Nat) : Char :=
  if n < 10 then Char.ofNat (48 + n) else Char.ofNat (55 + n)

/-- Lowercase hex rendering of a byte list: `hashlib`'s `hexdigest()`. -/
def bytesToHex (bs : List Nat) : String :=
  String.mk (bs.foldr (fun b acc => hexChar (b / 16 % 16) :: hexChar (b % 16) :: acc) [])

/-- Python `str.upper()` (ASCII, the only case used on hex digests). -/
def strUpper (s : String) : String := String.mk (s.data.map Char.toUpper)

/-- Python `str.lower()` (ASCII). -/
def strLower (s : String) : String := String.mk (s.data.map Char.toLower)

/-- Truncation to 32 bits. -/
def mask32 (n : Nat) : Nat := n % 4294967296

/-- 32-bit left rotation (the operand is already reduced mod 2^32). -/
def rotl32 (k x : Nat) : Nat := mask32 ((x <<< k) ||| (x >>> (32 - k)))

/-- Big-endian 32-bit word `i` of a 64-byte block. -/
def bytesToWordBE (bs : List Nat) (i : Nat) : Nat :=
  (bs.getD (4*i) 0) <<< 24 ||| (bs.getD (4*i+1) 0) <<< 16 |||
  (bs.getD (4*i+2) 0) <<< 8 ||| bs.getD (4*i+3) 0

/-- Merkle–Damgård padding with big-endian length (SHA-1). -/
def padBE (msg : List Nat) : List Nat :=
  let len := msg.length
  let zeros := (119 - len % 64) % 64
  let ml := 8 * len
  msg ++ 128 :: List.replicate zeros 0 ++
    [ml >>> 56 % 256, ml >>> 48 % 256, ml >>> 40 % 256, ml >>> 32 % 256,
     ml >>> 24 % 256, ml >>> 16 % 256, ml >>> 8 % 256, ml % 256]

/-- Accumulator pass of `toBlocks`: gathers 64 bytes (in reverse) into `acc`
and emits a block each time it is full. -/
def toBlocksGo : List Nat → List Nat → List (List Nat)
  | acc, [] => if acc.isEmpty then [] else [acc.reverse]
  | acc, b :: rest =>
    if acc.length = 63 then (b :: acc).reverse :: toBlocksGo [] rest
    else toBlocksGo (b :: acc) rest

/-- Split a padded message into 64-byte blocks. -/
def toBlocks (bs : List Nat) : List (List Nat) := toBlocksGo [] bs

/-- SHA-1 round function. -/
def sha1F (t b c d : Nat) : Nat :=
  if t < 20 then (b &&& c) ||| ((4294967295 - b) &&& d)
  else if t < 40 then b ^^^ c ^^^ d
  else if t < 60 then (b &&& c) ||| (b &&& d) ||| (c &&& d)
  else b ^^^ c ^^^ d

/-- SHA-1 round constants. -/
def sha1K (t : Nat) : Nat :=
  if t < 20 then 0x5A827999 else if t < 40 then 0x6ED9EBA1
  else if t < 60 then 0x8F1BBCDC else 0xCA62C1D6

/-- SHA-1 message schedule (80 words). -/
def sha1W (block : List Nat) : List Nat :=
  (List.range 80).foldl
    (fun ws t =>
      if t < 16 then ws ++ [bytesToWordBE block t]
      else ws ++ [rotl32 1 (ws.getD (t-3) 0 ^^^ ws.getD (t-8) 0 ^^^
                            ws.getD (t-14) 0 ^^^ ws.getD (t-16) 0)])
    []

/-- SHA-1 compression of one 64-byte block. -/
def sha1Block (h : Nat × Nat × Nat × Nat × Nat) (block : List Nat) :
    Nat × Nat × Nat × Nat × Nat :=
  let w := sha1W block
  let (h0, h1, h2, h3, h4) := h
  let r := (List.range 80).foldl
    (fun st t =>
      let (a, b, c, d, e) := st
      let tmp := mask32 (rotl32 5 a + sha1F t b c d + e + sha1K t + w.getD t 0)
      (tmp, a, rotl32 30 b, c, d))
    (h0, h1, h2, h3, h4)
  let (a, b, c, d, e) := r
  (mask32 (h0 + a), mask32 (h1 + b), mask32 (h2 + c), mask32 (h3 + d), mask32 (h4 + e))

/-- Big-endian bytes of a 32-bit word. -/
def wordBytesBE (w : Nat) : List Nat := [w >>> 24 % 256, w >>> 16 % 256, w >>> 8 % 256, w % 256]

/-- SHA-1 digest (20 bytes) of a byte string. -/
def sha1Bytes (msg : List Nat) : List Nat :=
  let h := (toBlocks (padBE msg)).foldl sha1Block
    (0x67452301, 0xEFCDAB89, 0x98BADCFE, 0x10325476, 0xC3D2E1F0)
  wordBytesBE h.1 ++ wordBytesBE h.2.1 ++ wordBytesBE h.2.2.1 ++
    wordBytesBE h.2.2.2.1 ++ wordBytesBE h.2.2.2.2

/-- `hashlib.sha1(s).hexdigest()`: lowercase hex SHA-1 digest. -/
def sha1Hex (s : String) : String := bytesToHex (sha1Bytes (strBytes s))

/-- MD5 per-round left-rotation amounts. -/
def md5S : List Nat :=
  [7,12,17,22,7,12,17,22,7,12,17,22,7,12,17,22,
   5,9,14,20,5,9,14,20,5,9,14,20,5,9,14,20,
   4,11,16,23,4,11,16,23,4,11,16,23,4,11,16,23,
   6,10,15,21,6,10,15,21,6,10,15,21,6,10,15,21]

/-- MD5 round constants (floor(abs(sin(i+1)) * 2^32)). -/
def md5K : List Nat :=
  [0xd76aa478, 0xe8c7b756, 0x242070db, 0xc1bdceee,
   0xf57c0faf, 0x4787c62a, 0xa8304613, 0xfd469501,
   0x698098d8, 0x8b44f7af, 0xffff5bb1, 0x895cd7be,
   0x6b901122, 0xfd987193, 0xa679438e, 0x49b40821,
   0xf61e2562, 0xc040b340, 0x265e5a51, 0xe9b6c7aa,
   0xd62f105d, 0x02441453, 0xd8a1e681, 0xe7d3fbc8,
   0x21e1cde6, 0xc33707d6, 0xf4d50d87, 0x455a14ed,
   0xa9e3e905, 0xfcefa3f8, 0x676f02d9, 0x8d2a4c8a,
   0xfffa3942, 0x8771f681, 0x6d9d6122, 0xfde5380c,
   0xa4beea44, 0x4bdecfa9, 0xf6bb4b60, 0xbebfbc70,
   0x289b7ec6, 0xeaa127fa, 0xd4ef3085, 0x04881d05,
   0xd9d4d039, 0xe6db99e5, 0x1fa27cf8, 0xc4ac5665,
   0xf4292244, 0x432aff97, 0xab9423a7, 0xfc93a039,
   0x655b59c3, 0x8f0ccc92, 0xffeff47d, 0x85845dd1,
   0x6fa87e4f, 0xfe2ce6e0, 0xa3014314, 0x4e0811a1,
   0xf7537e82, 0xbd3af235, 0x2ad7d2bb, 0xeb86d391]

/-- Little-endian 32-bit word `i` of a 64-byte block. -/
def bytesToWordLE (bs : List Nat) (i : Nat) : Nat :=
  bs.getD (4*i) 0 ||| bs.getD (4*i+1) 0 <<< 8 |||
  bs.getD (4*i+2) 0 <<< 16 ||| bs.getD (4*i+3) 0 <<< 24

/-- Merkle–Damgård padding with little-endian length (MD5). -/
def padLE (msg : List Nat) : List Nat :=
  let len := msg.length
  let zeros := (119 - len % 64) % 64
  let ml := 8 * len
  msg ++ 128 :: List.replicate zeros 0 ++
    [ml % 256, ml >>> 8 % 256, ml >>> 16 % 256, ml >>> 24 % 256,
     ml >>> 32 % 256, ml >>> 40 % 256, ml >>> 48 % 256, ml >>> 56 % 256]

/-- MD5 round function. -/
def md5F (t b c d : Nat) : Nat :=
  if t < 16 then (b &&& c) ||| ((4294967295 - b) &&& d)
  else if t < 32 then (d &&& b) ||| ((4294967295 - d) &&& c)
  else if t < 48 then b ^^^ c ^^^ d
  else c ^^^ (b ||| (4294967295 - d))

/-- MD5 message-word index per round. -/
def md5G (t : Nat) : Nat :=
  if t < 16 then t
  else if t < 32 then (5*t + 1) % 16
  else if t < 48 then (3*t + 5) % 16
  else (7*t) % 16

/-- MD5 compression of one 64-byte block. -/
def md5Block (h : Nat × Nat × Nat × Nat) (block : List Nat) : Nat × Nat × Nat × Nat :=
  let (a0, b0, c0, d0) := h
  let r := (List.range 64).foldl
    (fun st t =>
      let (a, b, c, d) := st
      let f := mask32 (md5F t b c d + a + md5K.getD t 0 + bytesToWordLE block (md5G t))
      (d, mask32 (b + rotl32 (md5S.getD t 0) f), b, c))
    (a0, b0, c0, d0)
  let (a, b, c, d) := r
  (mask32 (a0 + a), mask32 (b0 + b), mask32 (c0 + c), mask32 (d0 + d))

/-- Little-endian bytes of a 32-bit word. -/
def wordBytesLE (w : Nat) : List Nat := [w % 256, w >>> 8 % 256, w >>> 16 % 256, w >>> 24 % 256]

/-- MD5 digest (16 bytes) of a byte string. -/
def md5Bytes (msg : List Nat) : List Nat :=
  let h := (toBlocks (padLE msg)).foldl md5Block
    (0x67452301, 0xefcdab89, 0x98badcfe, 0x10325476)
  wordBytesLE h.1 ++ wordBytesLE h.2.1 ++ wordBytesLE h.2.2.1 ++ wordBytesLE h.2.2.2

/-- `hashlib.md5(s).hexdigest()`: lowercase hex MD5 digest. -/
def md5Hex (s : String) : String := bytesToHex (md5Bytes (strBytes s))

/-- Implementation check of the SHA-1 embedding against the standard "abc"
test vector. -/
theorem sha1Hex_abc : sha1Hex "abc" = "a9993e364706816aba3e25717850c26c9cd0d89d" := by
  decide

/-- Implementation check of the SHA-1 embedding against the empty-string
test vector. -/
theorem sha1Hex_empty : sha1Hex "" = "da39a3ee5e6b4b0d3255bfef95601890afd80709" := by
  decide

/-- Implementation check of the MD5 embedding against the standard "abc"
test vector. -/
theorem md5Hex_abc : md5Hex "abc" = "900150983cd24fb0d6963f7d28e17f72" := by
  decide

/-- Implementation check of the MD5 embedding against the empty-string
test vector. -/
theorem md5Hex_empty : md5Hex "" = "d41d8cd98f00b204e9800998ecf8427e" := by
  decide

/-- Is a byte in `urllib`'s always-safe set (letters, digits, `_`, `.`, `-`)? -/
def urlSafeByte (b : Nat) : Bool :=
  (48 ≤ b && b ≤ 57) || (65 ≤ b && b ≤ 90) || (97 ≤ b && b ≤ 122) ||
  b = 95 || b = 46 || b = 45

/-- `urllib.quote_plus` with empty `safe`, as used by `urlencode`: spaces
become `+`, safe bytes pass through, everything else is `%XX`-escaped. -/
def quotePlus (s : String) : String :=
  String.mk ((strBytes s).foldr
    (fun b acc =>
      (if urlSafeByte b then [Char.ofNat b]
       else if b = 32 then ['+']
       else ['%', hexCharUpper (b / 16 % 16), hexCharUpper (b % 16)]) ++ acc)
    [])

/-- `urllib.urlencode` on a pair list: `quote_plus(str(k)) + '=' + quote_plus(str(v))`
joined with `&`. -/
def urlencodePairs (l : List (String × PyVal)) : String :=
  String.intercalate "&" (l.map fun p => quotePlus p.1 ++ "=" ++ quotePlus (pyString p.2))

/-- Decoded JSON values, as returned by `r.json()`. -/
inductive Json where
  | str (s : String)
  | int (n : Int)
  | bool (b : Bool)
  | null
  | arr (xs : List Json)
  | obj (fields : List (String × Json))

/-- A decoded JSON object (`r.json()` of every platform endpoint). -/
abbrev JsonObj := List (String × Json)

/-- Key lookup in a decoded JSON object. -/
def jsonLookup : JsonObj → String → Option Json
  | [], _ => Option.none
  | (k', v) :: rest, k => if k' = k then Option.some v else jsonLookup rest k

/-- Python `json["errcode"] != 0` on the looked-up value (`False == 0` and
`0 == 0` in Python; every other JSON value differs from `0`). -/
def jsonNeZero : Json → Bool
  | .int n => n ≠ 0
  | .bool b => b
  | _ => true

/-- Python-level failures raised by the modelled code paths. The
`clientException` carries the `errcode` and `errmsg` values that
`check_error` formats into its message string. -/
inductive PyErr where
  | assertionError (msg : String)
  | clientException (errcode errmsg : Json)
  | keyError (k : String)
  | typeError

/-- `check_error`: raise `ClientException` when the decoded object carries a
non-zero `errcode` (looking up `errmsg` for the message, a `KeyError` if it
is absent), and hand back the object itself otherwise. -/
def check_error (j : JsonObj) : Except PyErr JsonObj :=
  match jsonLookup j "errcode" with
  | Option.some code =>
    if jsonNeZero code then
      match jsonLookup j "errmsg" with
      | Option.some msg => .error (.clientException code msg)
      | Option.none => .error (.keyError "errmsg")
    else .ok j
  | Option.none => .ok j

/-- The tail of `Client.request` after the transport call succeeded and the
body decoded to the object `j`: `if check_error(json): return json` returns
the object when it is truthy (non-empty) and falls through to `None`
otherwise. -/
def requestReturn (j : JsonObj) : Except PyErr (Option JsonObj) :=
  match check_error j with
  | .error e => .error e
  | .ok j' => if j'.isEmpty then .ok Option.none else .ok (Option.some j')

/-- Characters escaped by `json.dumps` (default `ensure_ascii=True`). -/
def hex4 (n : Nat) : List Char :=
  [hexChar (n / 4096 % 16), hexChar (n / 256 % 16), hexChar (n / 16 % 16), hexChar (n % 16)]

/-- One character of a JSON string as emitted by `json.dumps`. -/
def jsonEscChar (c : Char) : List Char :=
  if c = Char.ofNat 34 then [Char.ofNat 92, Char.ofNat 34]
  else if c = Char.ofNat 92 then [Char.ofNat 92, Char.ofNat 92]
  else if c = Char.ofNat 10 then [Char.ofNat 92, 'n']
  else if c = Char.ofNat 13 then [Char.ofNat 92, 'r']
  else if c = Char.ofNat 9 then [Char.ofNat 92, 't']
  else if c = Char.ofNat 8 then [Char.ofNat 92, 'b']
  else if c = Char.ofNat 12 then [Char.ofNat 92, 'f']
  else if c.toNat < 32 then Char.ofNat 92 :: 'u' :: hex4 c.toNat
  else if c.toNat < 127 then [c]
  else if c.toNat < 65536 then Char.ofNat 92 :: 'u' :: hex4 c.toNat
  else
    let n := c.toNat - 65536
    Char.ofNat 92 :: 'u' :: hex4 (55296 + n / 1024) ++
      Char.ofNat 92 :: 'u' :: hex4 (56320 + n % 1024)

/-- JSON string-body escaping. -/
def jsonEscape (s : String) : String :=
  String.mk (s.data.foldr (fun c acc => jsonEscChar c ++ acc) [])

mutual

/-- `json.dumps` with its Python 2 default separators `(', ', ': ')` and
`ensure_ascii=True`; dictionary fields are emitted in the modelled
insertion order. -/
def jsonDumps : Json → String
  | .str s => "\"" ++ jsonEscape s ++ "\""
  | .int n => toString n
  | .bool b => if b then "true" else "false"
  | .null => "null"
  | .arr xs => "[" ++ String.intercalate ", " (jsonDumpsList xs) ++ "]"
  | .obj fs => "\x7b" ++ String.intercalate ", " (jsonDumpsFields fs) ++ "\x7d"

/-- The serialized elements of a JSON array. -/
def jsonDumpsList : List Json → List String
  | [] => []
  | x :: xs => jsonDumps x :: jsonDumpsList xs

/-- The serialized `"key": value` fields of a JSON object. -/
def jsonDumpsFields : List (String × Json) → List String
  | [] => []
  | (k, v) :: fs => ("\"" ++ jsonEscape k ++ "\": " ++ jsonDumps v) :: jsonDumpsFields fs

end

/-- An HTTP request body as `Client.request` distinguishes it with
`isinstance(kwargs.get("data", ""), dict)`: a structured dict, raw text, or
a file stream. -/
inductive Body where
  | dict (d : JsonObj)
  | raw (s : String)
  | file (name : String)

/-- The keyword arguments of `Client.request` that the function inspects. -/
structure Kwargs where
  params : Option PyDict
  data : Option Body

/-- The kwargs preparation at the head of `Client.request`: inject
`access_token` when the caller supplied no explicit `params`, and JSON-encode
a dict body; `tok` is the value of `self.token`. -/
def requestPrepare (kw : Kwargs) (tok : String) : Kwargs :=
  let kw1 :=
    match kw.params with
    | Option.none => { kw with params := Option.some [("access_token", PyVal.str tok)] }
    | Option.some _ => kw
  match kw1.data with
  | Option.some (Body.dict d) =>
    { kw1 with data := Option.some (Body.raw (jsonDumps (Json.obj d))) }
  | _ => kw1

/-- The `werobot.client.Client` instance attributes set in `__init__`. -/
structure Client where
  appid : String
  appsecret : String
  _token : Option String
  token_expires_at : Option Int
  pay_sign_key : Option String
  pay_partner_id : Option String
  pay_partner_key : Option String
deriving DecidableEq, Repr

/-- A successful token-issuance response (`grant_token` result). -/
structure GrantResp where
  access_token : String
  expires_in : Int
deriving DecidableEq, Repr

/-- The refresh tail of the `Client.token` property: store the response
token together with `int(time.time()) + expires_in` (the second clock read
`now2`) and return the new token; the `1` counts the single `grant_token`
network call. -/
def tokenRefresh (c : Client) (now2 : Int) (resp : GrantResp) : String × Client × Nat :=
  (resp.access_token,
   { c with _token := Option.some resp.access_token,
            token_expires_at := Option.some (now2 + resp.expires_in) }, 1)

/-- The `Client.token` property. `now` is the clock read of the validity
check and `now2` the clock read after a refresh; `resp` is the response a
refresh would obtain. The result carries the returned token, the updated
client, and the number of `grant_token` network calls (0 or 1). A truthy
cached token with no stored expiry would make `self.token_expires_at - now`
a Python `TypeError`; that state is unreachable because `__init__` and the
refresh write both fields together. -/
def tokenGet (c : Client) (now now2 : Int) (resp : GrantResp) :
    Except PyErr (String × Client × Nat) :=
  match c._token with
  | Option.some t =>
    if t ≠ "" then
      match c.token_expires_at with
      | Option.some e =>
        if e - now > 60 then .ok (t, c, 0) else .ok (tokenRefresh c now2 resp)
      | Option.none => .error .typeError
    else .ok (tokenRefresh c now2 resp)
  | Option.none => .ok (tokenRefresh c now2 resp)

/-- The kwargs of `_pay_sign_dict` after injecting `appid` and (depending on
the flags) `noncestr` and `timestamp`; `nonce` models `generate_token()` and
`ts` models `int(time.time())`. -/
def paySignKwargs (c : Client) (addNoncestr addTimestamp : Bool) (kwargs : PyDict)
    (nonce : String) (ts : Int) : PyDict :=
  let kw := dictUpdate kwargs "appid" (PyVal.str c.appid)
  let kw := if addNoncestr then dictUpdate kw "noncestr" (PyVal.str nonce) else kw
  if addTimestamp then dictUpdate kw "timestamp" (PyVal.int ts) else kw

/-- The byte string hashed by `_pay_sign_dict`: all pairs plus
`('appkey', self.pay_sign_key)`, sorted together, joined `k=v` with `&`. -/
def paySignCanonical (c : Client) (addNoncestr addTimestamp : Bool) (kwargs : PyDict)
    (nonce : String) (ts : Int) : String :=
  joinPairs (sortPairs (paySignKwargs c addNoncestr addTimestamp kwargs nonce ts ++
    [("appkey", PyVal.str (c.pay_sign_key.getD ""))]))

/-- The signature computed by `_pay_sign_dict`. -/
def paySignSignature (c : Client) (addNoncestr addTimestamp : Bool) (kwargs : PyDict)
    (nonce : String) (ts : Int) : String :=
  sha1Hex (paySignCanonical c addNoncestr addTimestamp kwargs nonce ts)

/-- `Client._pay_sign_dict`: assert the sign key is truthy, inject the
fields, SHA-1 sign, and return `(dict(params), sign, 'SHA1')`. -/
def pay_sign_dict (c : Client) (addNoncestr addTimestamp : Bool) (kwargs : PyDict)
    (nonce : String) (ts : Int) : Except PyErr (PyDict × String × String) :=
  if optTruthy c.pay_sign_key then
    .ok (dictOf (paySignKwargs c addNoncestr addTimestamp kwargs nonce ts),
         paySignSignature c addNoncestr addTimestamp kwargs nonce ts,
         "SHA1")
  else .error (.assertionError "PAY SIGN KEY IS EMPTY")

/-- The package dict of `create_js_pay_package` after injecting `partner`
and the `bank_type` / `fee_type` / `input_charset` defaults. -/
def jsPayPackageDict (c : Client) (package : PyDict) : PyDict :=
  let p := dictUpdate package "partner" (pyOfOpt c.pay_partner_id)
  let p := dictSetdefault p "bank_type" (PyVal.str "WX")
  let p := dictSetdefault p "fee_type" (PyVal.str "1")
  dictSetdefault p "input_charset" (PyVal.str "UTF-8")

/-- `params` of `create_js_pay_package` after `params.sort()`. -/
def jsPayPackageParams (c : Client) (package : PyDict) : List (String × PyVal) :=
  sortPairs (jsPayPackageDict c package)

/-- The byte string MD5-hashed by `create_js_pay_package`: the sorted params
with `('key', self.pay_partner_key)` appended after the sort. -/
def jsPayPackageMd5Input (c : Client) (package : PyDict) : String :=
  joinPairs (jsPayPackageParams c package ++ [("key", pyOfOpt c.pay_partner_key)])

/-- The uppercased MD5 signature of `create_js_pay_package`. -/
def jsPayPackageSign (c : Client) (package : PyDict) : String :=
  strUpper (md5Hex (jsPayPackageMd5Input c package))

/-- The urlencoded output of `create_js_pay_package`. -/
def jsPayPackageOutput (c : Client) (package : PyDict) : String :=
  urlencodePairs (jsPayPackageParams c package ++
    [("sign", PyVal.str (jsPayPackageSign c package))])

/-- `Client.create_js_pay_package`: assert partner id and key are truthy,
build and sort the package, MD5-sign, and urlencode the pairs plus `sign`. -/
def create_js_pay_package (c : Client) (package : PyDict) : Except PyErr String :=
  if optTruthy c.pay_partner_id then
    if optTruthy c.pay_partner_key then .ok (jsPayPackageOutput c package)
    else .error (.assertionError "PAY_PARTNER_KEY IS EMPTY")
  else .error (.assertionError "PAY_PARTNER_ID IS EMPTY")

/-- One iteration of the re-casing loop in `create_js_pay_params`:
`t = d[old]; del d[old]; d[key] = t` (a `KeyError` if `old` is absent). -/
def renameKey (d : PyDict) (old new : String) : Except PyErr PyDict :=
  match dictLookup d old with
  | Option.some t => .ok (dictUpdate (dictDel d old) new t)
  | Option.none => .error (.keyError old)

/-- `Client.create_js_pay_params`: sign the packed package string, attach
`paySign` / `signType`, and re-case `appid`, `timestamp`, `noncestr` to the
camel-style names the JS SDK expects. -/
def create_js_pay_params (c : Client) (package : PyDict) (nonce : String) (ts : Int) :
    Except PyErr PyDict := do
  let pkg ← create_js_pay_package c package
  let (payParam, sign, signType) ←
    pay_sign_dict c true true [("package", PyVal.str pkg)] nonce ts
  let d := dictUpdate (dictUpdate payParam "paySign" (PyVal.str sign))
    "signType" (PyVal.str signType)
  let d ← renameKey d "appid" "appId"
  let d ← renameKey d "timestamp" "timeStamp"
  renameKey d "noncestr" "nonceStr"

/-- The signed dict of `create_native_pay_url` (params plus `sign`). -/
def nativePaySignedDict (c : Client) (productid : PyVal) (nonce : String) (ts : Int) :
    PyDict :=
  dictUpdate (dictOf (paySignKwargs c true true [("productid", productid)] nonce ts))
    "sign" (PyVal.str (paySignSignature c true true [("productid", productid)] nonce ts))

/-- `Client.create_native_pay_url`. -/
def create_native_pay_url (c : Client) (productid : PyVal) (nonce : String) (ts : Int) :
    Except PyErr String := do
  let (params, sign, _) ← pay_sign_dict c true true [("productid", productid)] nonce ts
  let params := dictUpdate params "sign" (PyVal.str sign)
  pure ("weixin://wxpay/bizpayurl?" ++ urlencodePairs params)

/-- `Client.pay_delivernotify` up to the data it posts. -/
def pay_delivernotify (c : Client) (deliver_info : PyDict) (nonce : String) (ts : Int) :
    Except PyErr PyDict := do
  let (params, sign, _) ← pay_sign_dict c false false deliver_info nonce ts
  let params := dictUpdate params "app_signature" (PyVal.str sign)
  pure (dictUpdate params "sign_method" (PyVal.str "sha1"))

/-- The package dict built at the top of `pay_orderquery`, with no guard on
`pay_partner_id` (an unset attribute is stored as `None`). -/
def orderqueryPackage (c : Client) (out_trade_no : PyVal) : PyDict :=
  [("partner", pyOfOpt c.pay_partner_id), ("out_trade_no", out_trade_no)]

/-- The byte string MD5-hashed by `pay_orderquery`: the dict items in
insertion order with `('key', self.pay_partner_key)` appended, with no guard
on `pay_partner_key` (an unset attribute is stringified as `None`). -/
def orderqueryMd5Input (c : Client) (out_trade_no : PyVal) : String :=
  joinPairs (orderqueryPackage c out_trade_no ++ [("key", pyOfOpt c.pay_partner_key)])

/-- The `package` string `pay_orderquery` passes into `_pay_sign_dict`. -/
def orderqueryPackageStr (c : Client) (out_trade_no : PyVal) : String :=
  joinPairs (dictUpdate (orderqueryPackage c out_trade_no) "sign"
    (PyVal.str (strUpper (md5Hex (orderqueryMd5Input c out_trade_no)))))

/-- `Client.pay_orderquery` up to the data it posts. -/
def pay_orderquery (c : Client) (out_trade_no : PyVal) (nonce : String) (ts : Int) :
    Except PyErr PyDict := do
  let (params, sign, _) ← pay_sign_dict c false true
    [("package", PyVal.str (orderqueryPackageStr c out_trade_no))] nonce ts
  let params := dictUpdate params "app_signature" (PyVal.str sign)
  pure (dictUpdate params "sign_method" (PyVal.str "sha1"))

/-- Projection of an `Except` result to its success value. -/
def okPart : Except PyErr α → Option α
  | .ok a => Option.some a
  | .error _ => Option.none

theorem char_toNat_inj {a b : Char} (h : a.toNat = b.toNat) : a = b := by
  have h2 := congrArg Char.ofNat h
  rwa [Char.ofNat_toNat, Char.ofNat_toNat] at h2

theorem cmpChars_swap : ∀ (a b : List Char), cmpChars b a = (cmpChars a b).swap := by
  intro a
  induction a with
  | nil => intro b; cases b <;> rfl
  | cons x xs ih =>
    intro b
    cases b with
    | nil => rfl
    | cons y ys =>
      simp only [cmpChars]
      by_cases h1 : x.toNat < y.toNat
      · have h2 : ¬ y.toNat < x.toNat := by omega
        simp [h1, h2, Ordering.swap]
      · by_cases h2 : y.toNat < x.toNat
        · simp [h1, h2, Ordering.swap]
        · simp [h1, h2, ih ys]

theorem cmpChars_eq : ∀ (a b : List Char), cmpChars a b = Ordering.eq → a = b := by
  intro a
  induction a with
  | nil => intro b; cases b <;> simp [cmpChars]
  | cons x xs ih =>
    intro b
    cases b with
    | nil => simp [cmpChars]
    | cons y ys =>
      simp only [cmpChars]
      by_cases h1 : x.toNat < y.toNat
      · simp [h1]
      · by_cases h2 : y.toNat < x.toNat
        · simp [h1, h2]
        · intro h3
          rw [if_neg h1, if_neg h2] at h3
          have hx : x = y := char_toNat_inj (by omega)
          rw [hx, ih ys h3]

theorem cmpChars_lt_trans : ∀ (a b c : List Char),
    cmpChars a b = Ordering.lt → cmpChars b c = Ordering.lt →
    cmpChars a c = Ordering.lt := by
  intro a
  induction a with
  | nil =>
    intro b c hab hbc
    cases b with
    | nil => simp [cmpChars] at hab
    | cons y ys =>
      cases c with
      | nil => simp [cmpChars] at hbc
      | cons z zs => simp [cmpChars]
  | cons x xs ih =>
    intro b c hab hbc
    cases b with
    | nil => simp [cmpChars] at hab
    | cons y ys =>
      cases c with
      | nil => simp [cmpChars] at hbc
      | cons z zs =>
        simp only [cmpChars] at hab hbc ⊢
        by_cases h1 : x.toNat < y.toNat
        · by_cases h2 : y.toNat < z.toNat
          · simp [show x.toNat < z.toNat by omega]
          · by_cases h3 : z.toNat < y.toNat
            · simp [h2, h3] at hbc
            · simp [show x.toNat < z.toNat by omega]
        · by_cases h3 : y.toNat < x.toNat
          · simp [h1, h3] at hab
          · by_cases h2 : y.toNat < z.toNat
            · simp [show x.toNat < z.toNat by omega]
            · by_cases h4 : z.toNat < y.toNat
              · simp [h2, h4] at hbc
              · rw [if_neg h1, if_neg h3] at hab
                rw [if_neg h2, if_neg h4] at hbc
                rw [if_neg (show ¬ x.toNat < z.toNat by omega),
                    if_neg (show ¬ z.toNat < x.toNat by omega)]
                exact ih ys zs hab hbc

theorem string_ext {a b : String} (h : a.data = b.data) : a = b := by
  cases a
  cases b
  exact congrArg String.mk h

theorem cmpStr_swap (a b : String) : cmpStr b a = (cmpStr a b).swap :=
  cmpChars_swap a.data b.data

theorem cmpStr_eq {a b : String} (h : cmpStr a b = Ordering.eq) : a = b :=
  string_ext (cmpChars_eq a.data b.data h)

theorem cmpVal_swap : ∀ (u v : PyVal), cmpVal v u = (cmpVal u v).swap := by
  intro u v
  cases u with
  | none => cases v <;> rfl
  | int m =>
    cases v with
    | none => rfl
    | str s => rfl
    | int n =>
      simp only [cmpVal]
      by_cases h1 : m < n
      · simp [h1, show ¬ n < m by omega, Ordering.swap]
      · by_cases h2 : n < m
        · simp [h1, h2, Ordering.swap]
        · simp [h1, h2, Ordering.swap]
  | str a =>
    cases v with
    | none => rfl
    | int n => rfl
    | str b =>
      simp only [cmpVal]
      exact cmpStr_swap a b

theorem cmpVal_eq : ∀ (u v : PyVal), cmpVal u v = Ordering.eq → u = v := by
  intro u v
  cases u with
  | none => cases v <;> simp [cmpVal]
  | int m =>
    cases v with
    | none => simp [cmpVal]
    | str s => simp [cmpVal]
    | int n =>
      simp only [cmpVal]
      intro h
      have hmn : m = n := by
        by_cases h1 : m < n
        · rw [if_pos h1] at h
          exact absurd h (by decide)
        · by_cases h2 : n < m
          · rw [if_neg h1, if_pos h2] at h
            exact absurd h (by decide)
          · omega
      rw [hmn]
  | str a =>
    cases v with
    | none => simp [cmpVal]
    | int n => simp [cmpVal]
    | str b =>
      simp only [cmpVal]
      intro h
      rw [cmpStr_eq h]

theorem intCmpLt {m n : Int}
    (h : (if m < n then Ordering.lt else if n < m then Ordering.gt else Ordering.eq) =
      Ordering.lt) : m < n := by
  by_cases h1 : m < n
  · exact h1
  · rw [if_neg h1] at h
    by_cases h2 : n < m
    · rw [if_pos h2] at h
      exact absurd h (by decide)
    · rw [if_neg h2] at h
      exact absurd h (by decide)

theorem cmpVal_lt_trans : ∀ (u v w : PyVal),
    cmpVal u v = Ordering.lt → cmpVal v w = Ordering.lt →
    cmpVal u w = Ordering.lt := by
  intro u v w
  cases u <;> cases v <;> cases w <;> simp only [cmpVal, cmpStr] <;> intro h1 h2
  all_goals try exact trivial
  all_goals try exact absurd h1 (by decide)
  all_goals try exact absurd h2 (by decide)
  case int.int.int m n p =>
    rw [if_pos (show m < p by have := intCmpLt h1; have := intCmpLt h2; omega)]
  case str.str.str a b c =>
    exact cmpChars_lt_trans a.data b.data c.data h1 h2

theorem cmpPair_swap (p q : String × PyVal) : cmpPair q p = (cmpPair p q).swap := by
  simp only [cmpPair]
  rw [cmpStr_swap]
  cases h : cmpStr p.1 q.1 with
  | lt => rfl
  | gt => rfl
  | eq => exact cmpVal_swap _ _

theorem cmpPair_eq {p q : String × PyVal} (h : cmpPair p q = Ordering.eq) : p = q := by
  simp only [cmpPair] at h
  obtain ⟨pk, pv⟩ := p
  obtain ⟨qk, qv⟩ := q
  cases hk : cmpStr pk qk with
  | lt => rw [hk] at h; simp at h
  | gt => rw [hk] at h; simp at h
  | eq =>
    rw [hk] at h
    have h2 : pv = qv := cmpVal_eq _ _ h
    rw [cmpStr_eq hk, h2]

theorem cmpPair_lt_trans {p q r : String × PyVal}
    (hab : cmpPair p q = Ordering.lt) (hbc : cmpPair q r = Ordering.lt) :
    cmpPair p r = Ordering.lt := by
  simp only [cmpPair] at hab hbc ⊢
  cases h1 : cmpStr p.1 q.1 with
  | gt => rw [h1] at hab; simp at hab
  | lt =>
    rw [h1] at hab
    cases h2 : cmpStr q.1 r.1 with
    | gt => rw [h2] at hbc; simp at hbc
    | lt =>
      rw [show cmpStr p.1 r.1 = Ordering.lt from cmpChars_lt_trans _ _ _ h1 h2]
    | eq =>
      have hqr : q.1 = r.1 := cmpStr_eq h2
      rw [show cmpStr p.1 r.1 = Ordering.lt by rw [← hqr]; exact h1]
  | eq =>
    rw [h1] at hab
    have hpq : p.1 = q.1 := cmpStr_eq h1
    cases h2 : cmpStr q.1 r.1 with
    | gt => rw [h2] at hbc; simp at hbc
    | lt =>
      rw [show cmpStr p.1 r.1 = Ordering.lt by rw [hpq]; exact h2]
    | eq =>
      rw [h2] at hbc
      rw [show cmpStr p.1 r.1 = Ordering.eq by rw [hpq]; exact h2]
      exact cmpVal_lt_trans _ _ _ hab hbc

theorem pairLe_iff (p q : String × PyVal) :
    pairLe p q = true ↔ cmpPair p q ≠ Ordering.gt := by
  simp only [pairLe]
  cases cmpPair p q <;> simp

theorem cmpPair_gt_iff (p q : String × PyVal) :
    cmpPair p q = Ordering.gt ↔ cmpPair q p = Ordering.lt := by
  rw [cmpPair_swap q p]
  cases cmpPair q p <;> simp [Ordering.swap]

theorem pairLe_total (p q : String × PyVal) : pairLe p q || pairLe q p := by
  by_cases h : cmpPair p q = Ordering.gt
  · have : cmpPair q p = Ordering.lt := (cmpPair_gt_iff p q).mp h
    have : pairLe q p = true := by simp [pairLe, this]
    simp [this]
  · have : pairLe p q = true := (pairLe_iff p q).mpr h
    simp [this]

theorem pairLe_trans (p q r : String × PyVal)
    (h1 : pairLe p q) (h2 : pairLe q r) : pairLe p r := by
  have h1g : cmpPair p q ≠ Ordering.gt := (pairLe_iff p q).mp h1
  have h2g : cmpPair q r ≠ Ordering.gt := (pairLe_iff q r).mp h2
  rw [pairLe_iff p r]
  intro hg
  cases hpq : cmpPair p q with
  | gt => exact h1g hpq
  | eq =>
    have he : p = q := cmpPair_eq hpq
    subst he
    exact h2g hg
  | lt =>
    cases hqr : cmpPair q r with
    | gt => exact h2g hqr
    | eq =>
      have he : q = r := cmpPair_eq hqr
      subst he
      rw [hpq] at hg
      exact absurd hg (by decide)
    | lt =>
      have hlt : cmpPair p r = Ordering.lt := cmpPair_lt_trans hpq hqr
      rw [hlt] at hg
      exact absurd hg (by decide)

theorem pairLe_antisymm (p q : String × PyVal)
    (h1 : pairLe p q = true) (h2 : pairLe q p = true) : p = q := by
  rw [pairLe_iff] at h1 h2
  cases h : cmpPair p q with
  | eq => exact cmpPair_eq h
  | gt => exact absurd h h1
  | lt => exact absurd ((cmpPair_gt_iff q p).mpr h) h2

instance instPairLeAntisymm :
    IsAntisymm (String × PyVal) (fun p q => pairLe p q = true) :=
  ⟨pairLe_antisymm⟩

instance instPairLeTrans :
    IsTrans (String × PyVal) (fun p q => pairLe p q = true) :=
  ⟨fun a b c => pairLe_trans a b c⟩

instance instPairLeTotal :
    IsTotal (String × PyVal) (fun p q => pairLe p q = true) := by
  refine ⟨fun a b => ?_⟩
  have h := pairLe_total a b
  simp only [Bool.or_eq_true] at h
  exact h

theorem sortPairs_perm (l : List (String × PyVal)) : List.Perm (sortPairs l) l :=
  List.perm_insertionSort (fun p q => pairLe p q = true) l

theorem sortPairs_sorted (l : List (String × PyVal)) :
    List.Sorted (fun p q => pairLe p q = true) (sortPairs l) :=
  List.sorted_insertionSort (fun p q => pairLe p q = true) l

theorem sortPairs_eq_of_perm {l1 l2 : List (String × PyVal)} (h : List.Perm l1 l2) :
    sortPairs l1 = sortPairs l2 :=
  List.eq_of_perm_of_sorted
    ((sortPairs_perm l1).trans (h.trans (sortPairs_perm l2).symm))
    (sortPairs_sorted l1) (sortPairs_sorted l2)

theorem mem_keys_dictUpdate {l : PyDict} {k x : String} {v : PyVal}
    (h : x ∈ (dictUpdate l k v).map Prod.fst) : x = k ∨ x ∈ l.map Prod.fst := by
  induction l with
  | nil =>
    simp [dictUpdate] at h
    exact Or.inl h
  | cons a rest ih =>
    obtain ⟨ak, av⟩ := a
    simp only [dictUpdate] at h
    by_cases hk : ak = k
    · rw [if_pos hk] at h
      simp only [List.map_cons, List.mem_cons] at h
      rcases h with h | h
      · exact Or.inl h
      · exact Or.inr (by simp only [List.map_cons, List.mem_cons]; exact Or.inr h)
    · rw [if_neg hk] at h
      simp only [List.map_cons, List.mem_cons] at h
      rcases h with h | h
      · exact Or.inr (by simp only [List.map_cons, List.mem_cons]; exact Or.inl h)
      · rcases ih h with h2 | h2
        · exact Or.inl h2
        · exact Or.inr (by simp only [List.map_cons, List.mem_cons]; exact Or.inr h2)

theorem nodup_keys_dictUpdate (k : String) (v : PyVal) {l : PyDict}
    (h : (l.map Prod.fst).Nodup) : ((dictUpdate l k v).map Prod.fst).Nodup := by
  induction l with
  | nil => simp [dictUpdate]
  | cons a rest ih =>
    obtain ⟨ak, av⟩ := a
    simp only [List.map_cons, List.nodup_cons] at h
    obtain ⟨hna, hnd⟩ := h
    simp only [dictUpdate]
    by_cases hk : ak = k
    · rw [if_pos hk]
      subst hk
      simp only [List.map_cons, List.nodup_cons]
      exact ⟨hna, hnd⟩
    · rw [if_neg hk]
      simp only [List.map_cons, List.nodup_cons]
      refine ⟨fun hmem => ?_, ih hnd⟩
      rcases mem_keys_dictUpdate hmem with h2 | h2
      · exact hk h2
      · exact hna h2

theorem dictUpdate_perm_del (k : String) (v : PyVal) {l : PyDict}
    (h : (l.map Prod.fst).Nodup) :
    List.Perm (dictUpdate l k v) ((k, v) :: dictDel l k) := by
  induction l with
  | nil => exact List.Perm.refl _
  | cons a rest ih =>
    obtain ⟨ak, av⟩ := a
    simp only [List.map_cons, List.nodup_cons] at h
    obtain ⟨hna, hnd⟩ := h
    by_cases hk : ak = k
    · subst hk
      rw [show dictUpdate ((ak, av) :: rest) ak v = (ak, v) :: rest from by
        simp [dictUpdate]]
      rw [show dictDel ((ak, av) :: rest) ak = dictDel rest ak from by
        simp [dictDel]]
      rw [show dictDel rest ak = rest from by
        simp only [dictDel]
        apply List.filter_eq_self.mpr
        intro p hp
        exact decide_eq_true (fun he => hna (he ▸ List.mem_map_of_mem Prod.fst hp))]
    · rw [show dictUpdate ((ak, av) :: rest) k v = (ak, av) :: dictUpdate rest k v from by
        simp [dictUpdate, hk]]
      rw [show dictDel ((ak, av) :: rest) k = (ak, av) :: dictDel rest k from by
        simp [dictDel, hk]]
      exact ((ih hnd).cons (ak, av)).trans (List.Perm.swap (k, v) (ak, av) (dictDel rest k))

theorem dictUpdate_congr (k : String) (v : PyVal) {l1 l2 : PyDict}
    (h : List.Perm l1 l2) (hnd : (l1.map Prod.fst).Nodup) :
    List.Perm (dictUpdate l1 k v) (dictUpdate l2 k v) := by
  have hnd2 : (l2.map Prod.fst).Nodup := ((h.map Prod.fst).nodup_iff).mp hnd
  exact (dictUpdate_perm_del k v hnd).trans
    (((h.filter _).cons (k, v)).trans (dictUpdate_perm_del k v hnd2).symm)

theorem dictLookup_isSome_iff {l : PyDict} {k : String} :
    (dictLookup l k).isSome = true ↔ k ∈ l.map Prod.fst := by
  induction l with
  | nil => simp [dictLookup]
  | cons a rest ih =>
    obtain ⟨ak, av⟩ := a
    simp only [dictLookup, List.map_cons, List.mem_cons]
    by_cases hk : ak = k
    · simp [hk]
    · rw [if_neg hk, ih]
      constructor
      · exact fun hm => Or.inr hm
      · rintro (he | hm)
        · exact absurd he.symm hk
        · exact hm

theorem dictLookup_eq_none_iff {l : PyDict} {k : String} :
    dictLookup l k = Option.none ↔ k ∉ l.map Prod.fst := by
  constructor
  · intro h hm
    have h2 := dictLookup_isSome_iff.mpr hm
    rw [h] at h2
    simp at h2
  · intro hm
    cases hl : dictLookup l k with
    | none => rfl
    | some v =>
      have h2 : (dictLookup l k).isSome = true := by rw [hl]; rfl
      exact absurd (dictLookup_isSome_iff.mp h2) hm

theorem dictContains_congr {l1 l2 : PyDict} (h : List.Perm l1 l2) (k : String) :
    dictContains l1 k = dictContains l2 k := by
  simp only [dictContains]
  by_cases hm : k ∈ l1.map Prod.fst
  · rw [dictLookup_isSome_iff.mpr hm,
        dictLookup_isSome_iff.mpr (((h.map Prod.fst).mem_iff).mp hm)]
  · have h1 : ¬ (dictLookup l1 k).isSome = true := fun hc => hm (dictLookup_isSome_iff.mp hc)
    have h2 : ¬ (dictLookup l2 k).isSome = true := fun hc =>
      hm (((h.map Prod.fst).mem_iff).mpr (dictLookup_isSome_iff.mp hc))
    rw [Bool.not_eq_true] at h1 h2
    rw [h1, h2]

theorem dictSetdefault_congr {l1 l2 : PyDict} {k : String} {v : PyVal}
    (h : List.Perm l1 l2) :
    List.Perm (dictSetdefault l1 k v) (dictSetdefault l2 k v) := by
  simp only [dictSetdefault]
  rw [dictContains_congr h k]
  cases hc : dictContains l2 k with
  | true => simp only [hc, if_true]; exact h
  | false => simp only [hc, Bool.false_eq_true, if_false]; exact h.append_right [(k, v)]

theorem mem_keys_dictSetdefault {l : PyDict} {k x : String} {v : PyVal}
    (h : x ∈ (dictSetdefault l k v).map Prod.fst) : x = k ∨ x ∈ l.map Prod.fst := by
  simp only [dictSetdefault] at h
  cases hc : dictContains l k with
  | true =>
    rw [hc] at h
    simp only [if_true] at h
    exact Or.inr h
  | false =>
    rw [hc] at h
    simp only [Bool.false_eq_true, if_false, List.map_append, List.mem_append] at h
    rcases h with h | h
    · exact Or.inr h
    · simp at h
      exact Or.inl h

theorem mem_keys_foldl_update {l : List (String × PyVal)} :
    ∀ {acc : PyDict} {x : String},
      x ∈ ((l.foldl (fun d p => dictUpdate d p.1 p.2) acc).map Prod.fst) →
      x ∈ acc.map Prod.fst ∨ x ∈ l.map Prod.fst := by
  induction l with
  | nil => exact fun h => Or.inl h
  | cons a rest ih =>
    intro acc x h
    simp only [List.foldl_cons] at h
    rcases ih h with h2 | h2
    · rcases mem_keys_dictUpdate h2 with h3 | h3
      · exact Or.inr (by simp only [List.map_cons, List.mem_cons]; exact Or.inl h3)
      · exact Or.inl h3
    · exact Or.inr (by simp only [List.map_cons, List.mem_cons]; exact Or.inr h2)

theorem mem_keys_dictOf {l : List (String × PyVal)} {x : String}
    (h : x ∈ (dictOf l).map Prod.fst) : x ∈ l.map Prod.fst := by
  rcases mem_keys_foldl_update h with h2 | h2
  · simp at h2
  · exact h2

theorem mem_keys_paySignKwargs {c : Client} {aN aT : Bool} {kw : PyDict}
    {nonce : String} {ts : Int} {x : String}
    (h : x ∈ (paySignKwargs c aN aT kw nonce ts).map Prod.fst) :
    x = "appid" ∨ x = "noncestr" ∨ x = "timestamp" ∨ x ∈ kw.map Prod.fst := by
  cases aN with
  | false =>
    cases aT with
    | false =>
      rcases mem_keys_dictUpdate h with h1 | h1
      · exact Or.inl h1
      · exact Or.inr (Or.inr (Or.inr h1))
    | true =>
      rcases mem_keys_dictUpdate h with h1 | h1
      · exact Or.inr (Or.inr (Or.inl h1))
      · rcases mem_keys_dictUpdate h1 with h2 | h2
        · exact Or.inl h2
        · exact Or.inr (Or.inr (Or.inr h2))
  | true =>
    cases aT with
    | false =>
      rcases mem_keys_dictUpdate h with h1 | h1
      · exact Or.inr (Or.inl h1)
      · rcases mem_keys_dictUpdate h1 with h2 | h2
        · exact Or.inl h2
        · exact Or.inr (Or.inr (Or.inr h2))
    | true =>
      rcases mem_keys_dictUpdate h with h1 | h1
      · exact Or.inr (Or.inr (Or.inl h1))
      · rcases mem_keys_dictUpdate h1 with h2 | h2
        · exact Or.inr (Or.inl h2)
        · rcases mem_keys_dictUpdate h2 with h3 | h3
          · exact Or.inl h3
          · exact Or.inr (Or.inr (Or.inr h3))

theorem mem_keys_jsPayPackageDict {c : Client} {pkg : PyDict} {x : String}
    (h : x ∈ (jsPayPackageDict c pkg).map Prod.fst) :
    x = "partner" ∨ x = "bank_type" ∨ x = "fee_type" ∨ x = "input_charset" ∨
      x ∈ pkg.map Prod.fst := by
  rcases mem_keys_dictSetdefault h with h1 | h1
  · exact Or.inr (Or.inr (Or.inr (Or.inl h1)))
  rcases mem_keys_dictSetdefault h1 with h2 | h2
  · exact Or.inr (Or.inr (Or.inl h2))
  rcases mem_keys_dictSetdefault h2 with h3 | h3
  · exact Or.inr (Or.inl h3)
  rcases mem_keys_dictUpdate h3 with h4 | h4
  · exact Or.inl h4
  · exact Or.inr (Or.inr (Or.inr (Or.inr h4)))

theorem paySignKwargs_congr (c : Client) (aN aT : Bool) {kw1 kw2 : PyDict}
    (h : List.Perm kw1 kw2) (hnd : (kw1.map Prod.fst).Nodup)
    (nonce : String) (ts : Int) :
    List.Perm (paySignKwargs c aN aT kw1 nonce ts) (paySignKwargs c aN aT kw2 nonce ts) := by
  have h1 := dictUpdate_congr "appid" (PyVal.str c.appid) h hnd
  have hnd1 := nodup_keys_dictUpdate "appid" (PyVal.str c.appid) hnd
  have h2 := dictUpdate_congr "noncestr" (PyVal.str nonce) h1 hnd1
  have hnd2 := nodup_keys_dictUpdate "noncestr" (PyVal.str nonce) hnd1
  cases aN with
  | false =>
    cases aT with
    | false => exact h1
    | true => exact dictUpdate_congr "timestamp" (PyVal.int ts) h1 hnd1
  | true =>
    cases aT with
    | false => exact h2
    | true => exact dictUpdate_congr "timestamp" (PyVal.int ts) h2 hnd2

theorem jsPayPackageDict_congr (c : Client) {p1 p2 : PyDict}
    (h : List.Perm p1 p2) (hnd : (p1.map Prod.fst).Nodup) :
    List.Perm (jsPayPackageDict c p1) (jsPayPackageDict c p2) := by
  have h1 := dictUpdate_congr "partner" (pyOfOpt c.pay_partner_id) h hnd
  exact dictSetdefault_congr (dictSetdefault_congr (dictSetdefault_congr h1))

theorem hexChar_cases : ∀ n, n < 16 →
    (Char.toLower (hexChar n) = hexChar n ∧
     Char.toLower (Char.toUpper (hexChar n)) = hexChar n ∧
     Char.toUpper (Char.toUpper (hexChar n)) = Char.toUpper (hexChar n)) := by
  decide

theorem map_toLower_hexList (bs : List Nat) :
    (bs.foldr (fun b acc => hexChar (b / 16 % 16) :: hexChar (b % 16) :: acc) []).map
        Char.toLower =
      bs.foldr (fun b acc => hexChar (b / 16 % 16) :: hexChar (b % 16) :: acc) [] := by
  induction bs with
  | nil => rfl
  | cons b rest ih =>
    simp only [List.foldr_cons, List.map_cons]
    rw [(hexChar_cases _ (Nat.mod_lt _ (by omega))).1,
        (hexChar_cases _ (Nat.mod_lt _ (by omega))).1, ih]

theorem map_lower_upper_hexList (bs : List Nat) :
    ((bs.foldr (fun b acc => hexChar (b / 16 % 16) :: hexChar (b % 16) :: acc) []).map
        Char.toUpper).map Char.toLower =
      bs.foldr (fun b acc => hexChar (b / 16 % 16) :: hexChar (b % 16) :: acc) [] := by
  induction bs with
  | nil => rfl
  | cons b rest ih =>
    simp only [List.foldr_cons, List.map_cons]
    rw [(hexChar_cases _ (Nat.mod_lt _ (by omega))).2.1,
        (hexChar_cases _ (Nat.mod_lt _ (by omega))).2.1, ih]

theorem map_upper_upper_hexList (bs : List Nat) :
    ((bs.foldr (fun b acc => hexChar (b / 16 % 16) :: hexChar (b % 16) :: acc) []).map
        Char.toUpper).map Char.toUpper =
      (bs.foldr (fun b acc => hexChar (b / 16 % 16) :: hexChar (b % 16) :: acc) []).map
        Char.toUpper := by
  induction bs with
  | nil => rfl
  | cons b rest ih =>
    simp only [List.foldr_cons, List.map_cons]
    rw [(hexChar_cases _ (Nat.mod_lt _ (by omega))).2.2,
        (hexChar_cases _ (Nat.mod_lt _ (by omega))).2.2, ih]

theorem strLower_bytesToHex (bs : List Nat) : strLower (bytesToHex bs) = bytesToHex bs :=
  congrArg String.mk (map_toLower_hexList bs)

theorem strLower_strUpper_bytesToHex (bs : List Nat) :
    strLower (strUpper (bytesToHex bs)) = bytesToHex bs :=
  congrArg String.mk (map_lower_upper_hexList bs)

theorem strUpper_strUpper_bytesToHex (bs : List Nat) :
    strUpper (strUpper (bytesToHex bs)) = strUpper (bytesToHex bs) :=
  congrArg String.mk (map_upper_upper_hexList bs)

/-- C1: the `token` property returns the cached token with no network call
and an unchanged client whenever a (truthy) cached token exists whose expiry
satisfies `expiresAt - now > 60`; otherwise it issues exactly one refresh
call and replaces both cache fields together from the same response,
returning the fresh token. The hypothesis `hwf` (a truthy cached token
always has a stored expiry) holds in every state `__init__` or a refresh
writes. -/
theorem claim_C1 (c : Client) (now now2 : Int) (resp : GrantResp)
    (hwf : ∀ t, c._token = Option.some t → t ≠ "" → c.token_expires_at.isSome) :
    (∀ t e, c._token = Option.some t → t ≠ "" → c.token_expires_at = Option.some e →
      e - now > 60 → tokenGet c now now2 resp = Except.ok (t, c, 0)) ∧
    ((∀ t e, c._token = Option.some t → t ≠ "" → c.token_expires_at = Option.some e →
        ¬ e - now > 60) →
      tokenGet c now now2 resp =
        Except.ok (resp.access_token,
          { c with _token := Option.some resp.access_token,
                   token_expires_at := Option.some (now2 + resp.expires_in) }, 1)) := by
  obtain ⟨aid, asec, tok, texp, k1, k2, k3⟩ := c
  constructor
  · intro t e ht hne he hgt
    simp only at ht he
    subst ht
    subst he
    simp only [tokenGet]
    rw [if_pos hne, if_pos hgt]
  · intro hno
    cases tok with
    | none => rfl
    | some t =>
      by_cases hne : t ≠ ""
      · have hsome := hwf t rfl hne
        simp only at hsome
        cases texp with
        | none => simp at hsome
        | some e =>
          have hle := hno t e rfl hne rfl
          simp only [tokenGet]
          rw [if_pos hne, if_neg hle]
          rfl
      · have ht : t = "" := not_not.mp hne
        subst ht
        simp only [tokenGet]
        rw [if_neg hne]
        rfl

/-- Witness for C1: a cached token with 900 seconds of validity is returned
unchanged with zero refresh calls; one with 50 seconds left (inside the 60s
skew) triggers exactly one refresh whose response replaces both fields. -/
theorem claim_C1_witness :
    tokenGet ⟨"a", "s", Option.some "tok", Option.some 1000, Option.none, Option.none,
        Option.none⟩ 100 100 ⟨"new", 7200⟩ =
      Except.ok ("tok", ⟨"a", "s", Option.some "tok", Option.some 1000, Option.none,
        Option.none, Option.none⟩, 0) ∧
    tokenGet ⟨"a", "s", Option.some "tok", Option.some 1000, Option.none, Option.none,
        Option.none⟩ 950 951 ⟨"new", 7200⟩ =
      Except.ok ("new", ⟨"a", "s", Option.some "new", Option.some (951 + 7200), Option.none,
        Option.none, Option.none⟩, 1) :=
  ⟨(claim_C1 ⟨"a", "s", Option.some "tok", Option.some 1000, Option.none, Option.none,
      Option.none⟩ 100 100 ⟨"new", 7200⟩ (fun t _ _ => rfl)).1 "tok" 1000 rfl
      (by decide) rfl (by decide),
   (claim_C1 ⟨"a", "s", Option.some "tok", Option.some 1000, Option.none, Option.none,
      Option.none⟩ 950 951 ⟨"new", 7200⟩ (fun t _ _ => rfl)).2 (fun t e ht hne he => by
      injection he with h2
      subst h2
      decide)⟩

/-- C2: evidence for the error-check contract and its failure point. A
response carrying a non-zero `errcode` makes `check_error` (and hence
`request`) fail with a `ClientException` carrying the code and the `errmsg`
value; responses with `errcode = 0` or without the field are returned
unchanged — except the empty object, which the claim says is returned
unchanged but which `request` turns into `None`, because
`if check_error(json): return json` falls through on a falsy (empty) dict
even though `check_error`'s own docstring says it returns `True`. -/
theorem claim_C2 :
    check_error [("errcode", Json.int 40001), ("errmsg", Json.str "invalid credential")] =
      Except.error (PyErr.clientException (Json.int 40001)
        (Json.str "invalid credential")) ∧
    requestReturn [("errcode", Json.int 40001), ("errmsg", Json.str "invalid credential")] =
      Except.error (PyErr.clientException (Json.int 40001)
        (Json.str "invalid credential")) ∧
    requestReturn [("errcode", Json.int 0), ("errmsg", Json.str "ok")] =
      Except.ok (Option.some [("errcode", Json.int 0), ("errmsg", Json.str "ok")]) ∧
    requestReturn [("foo", Json.str "bar")] =
      Except.ok (Option.some [("foo", Json.str "bar")]) ∧
    requestReturn [] = Except.ok Option.none :=
  ⟨rfl, rfl, rfl, rfl, rfl⟩

/-- C3: for the SHA1 signing operation applied to appid "wx1",
productid "123", noncestr "abc", timestamp 1000 with secret key "secret",
the canonical string hashed is exactly
"appid=wx1&appkey=secret&noncestr=abc&productid=123&timestamp=1000" (keys
sorted lexicographically, values in natural decimal form, no URL-encoding),
and the returned signature is the lowercase hex SHA-1 digest of that exact
string. -/
theorem claim_C3 :
    paySignCanonical ⟨"wx1", "", Option.none, Option.none, Option.some "secret",
        Option.none, Option.none⟩ true true [("productid", PyVal.str "123")] "abc" 1000 =
      "appid=wx1&appkey=secret&noncestr=abc&productid=123&timestamp=1000" ∧
    pay_sign_dict ⟨"wx1", "", Option.none, Option.none, Option.some "secret",
        Option.none, Option.none⟩ true true [("productid", PyVal.str "123")] "abc" 1000 =
      Except.ok ([("productid", PyVal.str "123"), ("appid", PyVal.str "wx1"),
            ("noncestr", PyVal.str "abc"), ("timestamp", PyVal.int 1000)],
          sha1Hex "appid=wx1&appkey=secret&noncestr=abc&productid=123&timestamp=1000",
          "SHA1") :=
  ⟨by decide, rfl⟩

/-- C5: evidence that `pay_orderquery` performs its MD5 package signing with
no configuration guard, contradicting the claim: with `pay_partner_id` and
`pay_partner_key` unset (and `pay_sign_key` set, so the only assertion on
the path passes), the canonical string it hashes is
"partner=None&out_trade_no=o1&key=None" — the stringified missing secret —
and the call reaches the network dispatch instead of failing; by contrast
the guarded signing operations do raise their assertions. -/
theorem claim_C5 :
    orderqueryMd5Input ⟨"a", "s", Option.none, Option.none, Option.some "k",
        Option.none, Option.none⟩ (PyVal.str "o1") =
      "partner=None&out_trade_no=o1&key=None" ∧
    (okPart (pay_orderquery ⟨"a", "s", Option.none, Option.none, Option.some "k",
        Option.none, Option.none⟩ (PyVal.str "o1") "n" 99)).isSome = true ∧
    pay_sign_dict ⟨"a", "s", Option.none, Option.none, Option.none, Option.none,
        Option.none⟩ false false [] "n" 99 =
      Except.error (PyErr.assertionError "PAY SIGN KEY IS EMPTY") ∧
    create_js_pay_package ⟨"a", "s", Option.none, Option.none, Option.some "k",
        Option.none, Option.none⟩ [] =
      Except.error (PyErr.assertionError "PAY_PARTNER_ID IS EMPTY") :=
  ⟨by decide, by decide, rfl, rfl⟩

/-- C6: for every input mapping and key, the SHA1-scheme signature is the
raw lowercase hex SHA-1 digest of its canonical string (lowercasing is the
identity on it), and the MD5-scheme signature is the uppercased raw hex MD5
digest of its canonical string; each differs from the raw digest only in
letter case (lowercasing the MD5-scheme output recovers the raw digest,
which is itself lowercase, and the MD5-scheme output is uppercase-stable). -/
theorem claim_C6 (c : Client) (aN aT : Bool) (kwargs : PyDict) (nonce : String)
    (ts : Int) (pkg : PyDict) :
    paySignSignature c aN aT kwargs nonce ts =
      sha1Hex (paySignCanonical c aN aT kwargs nonce ts) ∧
    strLower (paySignSignature c aN aT kwargs nonce ts) =
      paySignSignature c aN aT kwargs nonce ts ∧
    jsPayPackageSign c pkg = strUpper (md5Hex (jsPayPackageMd5Input c pkg)) ∧
    strLower (jsPayPackageSign c pkg) = md5Hex (jsPayPackageMd5Input c pkg) ∧
    strLower (md5Hex (jsPayPackageMd5Input c pkg)) = md5Hex (jsPayPackageMd5Input c pkg) ∧
    strUpper (jsPayPackageSign c pkg) = jsPayPackageSign c pkg :=
  ⟨rfl, strLower_bytesToHex _, rfl, strLower_strUpper_bytesToHex _,
   strLower_bytesToHex _, strUpper_strUpper_bytesToHex _⟩

/-- C9: `request` injects `access_token` as the sole query parameter exactly
when the caller supplied no explicit parameter set, leaves caller-supplied
parameter sets untouched, serializes a dict body to JSON text, and passes
any other body shape (raw text, file stream, or no body) through
unchanged. -/
theorem claim_C9 (kw : Kwargs) (tok : String) :
    (kw.params = Option.none →
      (requestPrepare kw tok).params = Option.some [("access_token", PyVal.str tok)]) ∧
    (∀ p, kw.params = Option.some p → (requestPrepare kw tok).params = Option.some p) ∧
    (∀ d, kw.data = Option.some (Body.dict d) →
      (requestPrepare kw tok).data = Option.some (Body.raw (jsonDumps (Json.obj d)))) ∧
    (∀ s, kw.data = Option.some (Body.raw s) →
      (requestPrepare kw tok).data = Option.some (Body.raw s)) ∧
    (∀ f, kw.data = Option.some (Body.file f) →
      (requestPrepare kw tok).data = Option.some (Body.file f)) ∧
    (kw.data = Option.none → (requestPrepare kw tok).data = Option.none) := by
  obtain ⟨ps, dt⟩ := kw
  refine ⟨?_, ?_, ?_, ?_, ?_, ?_⟩
  · intro h
    simp only at h
    subst h
    cases dt with
    | none => rfl
    | some b => cases b <;> rfl
  · intro p h
    simp only at h
    subst h
    cases dt with
    | none => rfl
    | some b => cases b <;> rfl
  · intro d h
    simp only at h
    subst h
    cases ps <;> rfl
  · intro s h
    simp only at h
    subst h
    cases ps <;> rfl
  · intro f h
    simp only at h
    subst h
    cases ps <;> rfl
  · intro h
    simp only at h
    subst h
    cases ps <;> rfl

/-- Witness for C9: with no explicit params and a dict body, the prepared
request carries exactly the access-token query parameter and the
JSON-serialized body. -/
theorem claim_C9_witness :
    (requestPrepare ⟨Option.none, Option.some (Body.dict [("a", Json.int 1)])⟩
        "TOK").params = Option.some [("access_token", PyVal.str "TOK")] ∧
    (requestPrepare ⟨Option.none, Option.some (Body.dict [("a", Json.int 1)])⟩
        "TOK").data = Option.some (Body.raw (jsonDumps (Json.obj [("a", Json.int 1)]))) :=
  ⟨(claim_C9 _ "TOK").1 rfl, (claim_C9 _ "TOK").2.2.1 _ rfl⟩

theorem exceptBind_ok {α β : Type} (a : α) (f : α → Except PyErr β) :
    (Except.ok a >>= f) = f a := rfl

theorem pay_sign_dict_ok {c : Client} (aN aT : Bool) (kwargs : PyDict)
    (nonce : String) (ts : Int) (h1 : optTruthy c.pay_sign_key = true) :
    pay_sign_dict c aN aT kwargs nonce ts =
      Except.ok (dictOf (paySignKwargs c aN aT kwargs nonce ts),
        paySignSignature c aN aT kwargs nonce ts, "SHA1") := by
  simp only [pay_sign_dict]
  rw [if_pos h1]

theorem create_js_pay_package_ok {c : Client} (package : PyDict)
    (h2 : optTruthy c.pay_partner_id = true) (h3 : optTruthy c.pay_partner_key = true) :
    create_js_pay_package c package = Except.ok (jsPayPackageOutput c package) := by
  simp only [create_js_pay_package]
  rw [if_pos h2, if_pos h3]

/-- Modelled from the spec's words, for comparison with the code: the MD5
scheme's canonical string as the claim describes it, with the
`('key', secret)` pair sorted together with the parameter pairs. -/
def sortedTogetherMd5Canonical (c : Client) (package : PyDict) : String :=
  joinPairs (sortPairs (jsPayPackageDict c package ++ [("key", pyOfOpt c.pay_partner_key)]))

/-- Counterexample to C4 as stated: in the MD5 scheme the secret pair is
appended after the sort, not sorted together with the other pairs — for an
empty caller package with partner id "P" and partner key "K" the hashed
string ends "...partner=P&key=K", while sorting the secret pair together
would have placed "key=K" before "partner=P". -/
theorem claim_C4_counterexample :
    jsPayPackageMd5Input ⟨"wx1", "s", Option.none, Option.none, Option.some "secret",
        Option.some "P", Option.some "K"⟩ [] =
      "bank_type=WX&fee_type=1&input_charset=UTF-8&partner=P&key=K" ∧
    sortedTogetherMd5Canonical ⟨"wx1", "s", Option.none, Option.none, Option.some "secret",
        Option.some "P", Option.some "K"⟩ [] =
      "bank_type=WX&fee_type=1&input_charset=UTF-8&key=K&partner=P" ∧
    jsPayPackageMd5Input ⟨"wx1", "s", Option.none, Option.none, Option.some "secret",
        Option.some "P", Option.some "K"⟩ [] ≠
      sortedTogetherMd5Canonical ⟨"wx1", "s", Option.none, Option.none, Option.some "secret",
        Option.some "P", Option.some "K"⟩ [] :=
  ⟨by decide, by decide, by decide⟩

/-- C4 (amended): in the SHA1 scheme the `('appkey', secret)` pair is
appended and all pairs, the secret pair included, are sorted together by the
byte-wise key order, so the canonical string serializes a sorted permutation
of the params plus the secret pair; in the MD5 scheme the parameter pairs
are sorted first and the `('key', secret)` pair is appended after the sort,
always occupying the final position of the serialized pair list. -/
theorem claim_C4 (c : Client) (aN aT : Bool) (kwargs : PyDict) (nonce : String)
    (ts : Int) (pkg : PyDict) :
    (∃ l, List.Perm l (paySignKwargs c aN aT kwargs nonce ts ++
        [("appkey", PyVal.str (c.pay_sign_key.getD ""))]) ∧
      List.Sorted (fun p q => pairLe p q = true) l ∧
      paySignCanonical c aN aT kwargs nonce ts = joinPairs l) ∧
    jsPayPackageMd5Input c pkg =
      joinPairs (jsPayPackageParams c pkg ++ [("key", pyOfOpt c.pay_partner_key)]) ∧
    (jsPayPackageParams c pkg ++ [("key", pyOfOpt c.pay_partner_key)]).getLast? =
      Option.some ("key", pyOfOpt c.pay_partner_key) :=
  ⟨⟨sortPairs (paySignKwargs c aN aT kwargs nonce ts ++
      [("appkey", PyVal.str (c.pay_sign_key.getD ""))]),
    sortPairs_perm _, sortPairs_sorted _, rfl⟩,
   rfl, List.getLast?_concat _⟩

/-- C7: the signing result depends only on the set of key-value pairs, not
on the order the mapping was built: for input mappings that are permutations
of each other (with unique keys, as Python dict kwargs are), the SHA1 scheme
produces identical digests and the MD5 package scheme produces an identical
digest and even an identical urlencoded output. -/
theorem claim_C7 (c : Client) (aN aT : Bool) (kw1 kw2 pkg1 pkg2 : PyDict)
    (nonce : String) (ts : Int)
    (hkw : List.Perm kw1 kw2) (hkwnd : (kw1.map Prod.fst).Nodup)
    (hpkg : List.Perm pkg1 pkg2) (hpkgnd : (pkg1.map Prod.fst).Nodup) :
    paySignSignature c aN aT kw1 nonce ts = paySignSignature c aN aT kw2 nonce ts ∧
    jsPayPackageSign c pkg1 = jsPayPackageSign c pkg2 ∧
    jsPayPackageOutput c pkg1 = jsPayPackageOutput c pkg2 := by
  have h1 : sortPairs (paySignKwargs c aN aT kw1 nonce ts ++
        [("appkey", PyVal.str (c.pay_sign_key.getD ""))]) =
      sortPairs (paySignKwargs c aN aT kw2 nonce ts ++
        [("appkey", PyVal.str (c.pay_sign_key.getD ""))]) :=
    sortPairs_eq_of_perm
      ((paySignKwargs_congr c aN aT hkw hkwnd nonce ts).append_right _)
  have h2 : jsPayPackageParams c pkg1 = jsPayPackageParams c pkg2 :=
    sortPairs_eq_of_perm (jsPayPackageDict_congr c hpkg hpkgnd)
  refine ⟨?_, ?_, ?_⟩
  · simp only [paySignSignature, paySignCanonical, h1]
  · simp only [jsPayPackageSign, jsPayPackageMd5Input, h2]
  · simp only [jsPayPackageOutput, jsPayPackageSign, jsPayPackageMd5Input, h2]

/-- Witness for C7: the mapping built as b=2, a=1 signs identically to the
mapping built as a=1, b=2, under both schemes. -/
theorem claim_C7_witness :
    paySignSignature ⟨"wx1", "s", Option.none, Option.none, Option.some "secret",
        Option.some "P", Option.some "K"⟩ true true
        [("b", PyVal.int 2), ("a", PyVal.int 1)] "n" 7 =
      paySignSignature ⟨"wx1", "s", Option.none, Option.none, Option.some "secret",
        Option.some "P", Option.some "K"⟩ true true
        [("a", PyVal.int 1), ("b", PyVal.int 2)] "n" 7 ∧
    jsPayPackageSign ⟨"wx1", "s", Option.none, Option.none, Option.some "secret",
        Option.some "P", Option.some "K"⟩ [("b", PyVal.int 2), ("a", PyVal.int 1)] =
      jsPayPackageSign ⟨"wx1", "s", Option.none, Option.none, Option.some "secret",
        Option.some "P", Option.some "K"⟩ [("a", PyVal.int 1), ("b", PyVal.int 2)] ∧
    jsPayPackageOutput ⟨"wx1", "s", Option.none, Option.none, Option.some "secret",
        Option.some "P", Option.some "K"⟩ [("b", PyVal.int 2), ("a", PyVal.int 1)] =
      jsPayPackageOutput ⟨"wx1", "s", Option.none, Option.none, Option.some "secret",
        Option.some "P", Option.some "K"⟩ [("a", PyVal.int 1), ("b", PyVal.int 2)] :=
  claim_C7 ⟨"wx1", "s", Option.none, Option.none, Option.some "secret",
      Option.some "P", Option.some "K"⟩ true true
    [("b", PyVal.int 2), ("a", PyVal.int 1)] [("a", PyVal.int 1), ("b", PyVal.int 2)]
    [("b", PyVal.int 2), ("a", PyVal.int 1)] [("a", PyVal.int 1), ("b", PyVal.int 2)]
    "n" 7 (by decide) (by decide) (by decide) (by decide)

/-- Counterexample to C8 as stated: the signature entry `create_js_pay_params`
adds is keyed "paySign", not "sign" — at a concrete client the call succeeds
and its result has no "sign" entry, while the signature sits under
"paySign". -/
theorem claim_C8_counterexample :
    (okPart (create_js_pay_params ⟨"wx1", "s", Option.none, Option.none,
        Option.some "secret", Option.some "P", Option.some "K"⟩ [] "abc" 1000)).map
      (fun d => dictLookup d "sign") = Option.some Option.none ∧
    (okPart (create_js_pay_params ⟨"wx1", "s", Option.none, Option.none,
        Option.some "secret", Option.some "P", Option.some "K"⟩ [] "abc" 1000)).map
      (fun d => (dictLookup d "paySign").isSome) = Option.some true :=
  ⟨by decide, by decide⟩

/-- C8 (amended): when the three pay secrets are configured,
`create_js_pay_params` returns exactly the mapping that was signed plus a
`paySign` entry carrying the signature of the single signing call and a
`signType` tag "SHA1", with `appid`, `timestamp`, `noncestr` renamed to
`appId`, `timeStamp`, `nonceStr`; each renamed entry keeps the value that
was signed, the old-cased keys (and "sign") are absent, no other entry is
added, removed or changed, and the signature is not recomputed after the
rename. -/
theorem claim_C8 (c : Client) (package : PyDict) (nonce : String) (ts : Int)
    (h1 : optTruthy c.pay_sign_key = true)
    (h2 : optTruthy c.pay_partner_id = true)
    (h3 : optTruthy c.pay_partner_key = true) :
    create_js_pay_params c package nonce ts =
      Except.ok [("package", PyVal.str (jsPayPackageOutput c package)),
        ("paySign", PyVal.str (paySignSignature c true true
          [("package", PyVal.str (jsPayPackageOutput c package))] nonce ts)),
        ("signType", PyVal.str "SHA1"),
        ("appId", PyVal.str c.appid),
        ("timeStamp", PyVal.int ts),
        ("nonceStr", PyVal.str nonce)] := by
  simp only [create_js_pay_params]
  rw [create_js_pay_package_ok package h2 h3]
  simp only [exceptBind_ok]
  rw [pay_sign_dict_ok true true _ nonce ts h1]
  simp only [exceptBind_ok]
  rfl

/-- Witness for C8 at a concrete client: the returned mapping carries the
package string, paySign, signType "SHA1" and the three re-cased entries. -/
theorem claim_C8_witness :
    create_js_pay_params ⟨"wx1", "s", Option.none, Option.none, Option.some "secret",
        Option.some "P", Option.some "K"⟩ [] "abc" 1000 =
      Except.ok [("package", PyVal.str (jsPayPackageOutput ⟨"wx1", "s", Option.none,
          Option.none, Option.some "secret", Option.some "P", Option.some "K"⟩ [])),
        ("paySign", PyVal.str (paySignSignature ⟨"wx1", "s", Option.none, Option.none,
          Option.some "secret", Option.some "P", Option.some "K"⟩ true true
          [("package", PyVal.str (jsPayPackageOutput ⟨"wx1", "s", Option.none,
            Option.none, Option.some "secret", Option.some "P", Option.some "K"⟩ []))]
          "abc" 1000)),
        ("signType", PyVal.str "SHA1"),
        ("appId", PyVal.str "wx1"),
        ("timeStamp", PyVal.int 1000),
        ("nonceStr", PyVal.str "abc")] :=
  claim_C8 ⟨"wx1", "s", Option.none, Option.none, Option.some "secret",
      Option.some "P", Option.some "K"⟩ [] "abc" 1000 (by decide) (by decide) (by decide)

/-- Counterexample to C10 as stated: if the caller's own mapping carries an
"appkey" entry, the SHA1 signing primitive returns it in its output dict
(with the caller's value), so the returned mapping is not always free of an
"appkey" entry. -/
theorem claim_C10_counterexample :
    (okPart (pay_sign_dict ⟨"wx1", "s", Option.none, Option.none, Option.some "secret",
        Option.none, Option.none⟩ true true [("appkey", PyVal.str "x")] "n" 7)).map
      (fun r => dictLookup r.1 "appkey") = Option.some (Option.some (PyVal.str "x")) := by
  decide

/-- C10 (amended): provided the caller's mapping does not itself use the
reserved secret key name ("appkey" for the SHA1 scheme, "key" for the MD5
scheme), the secret pair never appears in a signing operation's output: the
dict returned by `_pay_sign_dict` has no "appkey" entry, the pair list
urlencoded by `create_js_pay_package` has no "key" pair, and the pair list
behind the native pay URL has neither — the secret reaches the output only
through the computed signature value. -/
theorem claim_C10 (c : Client) (aN aT : Bool) (kwargs : PyDict) (nonce : String)
    (ts : Int) (pkg : PyDict) (productid : PyVal)
    (hkw : "appkey" ∉ kwargs.map Prod.fst)
    (hpkg : "key" ∉ pkg.map Prod.fst) :
    (∀ d sg st, pay_sign_dict c aN aT kwargs nonce ts = Except.ok (d, sg, st) →
      dictLookup d "appkey" = Option.none) ∧
    (∀ p, p ∈ jsPayPackageParams c pkg ++
        [("sign", PyVal.str (jsPayPackageSign c pkg))] → p.1 ≠ "key") ∧
    (∀ p, p ∈ nativePaySignedDict c productid nonce ts →
      p.1 ≠ "appkey" ∧ p.1 ≠ "key") ∧
    (optTruthy c.pay_sign_key = true →
      create_native_pay_url c productid nonce ts =
        Except.ok ("weixin://wxpay/bizpayurl?" ++
          urlencodePairs (nativePaySignedDict c productid nonce ts))) := by
  refine ⟨?_, ?_, ?_, ?_⟩
  · intro d sg st h
    by_cases hc : optTruthy c.pay_sign_key = true
    · rw [pay_sign_dict_ok aN aT kwargs nonce ts hc] at h
      injection h with h2
      injection h2 with hd h3
      subst hd
      apply dictLookup_eq_none_iff.mpr
      intro hm
      rcases mem_keys_paySignKwargs (mem_keys_dictOf hm) with h3 | h3 | h3 | h3
      · exact absurd h3 (by decide)
      · exact absurd h3 (by decide)
      · exact absurd h3 (by decide)
      · exact hkw h3
    · simp only [pay_sign_dict] at h
      rw [if_neg hc] at h
      exact Except.noConfusion h
  · intro p hp
    rcases List.mem_append.mp hp with hp | hp
    · intro he
      have hp2 := (sortPairs_perm (jsPayPackageDict c pkg)).mem_iff.mp hp
      rcases mem_keys_jsPayPackageDict (List.mem_map_of_mem Prod.fst hp2)
        with h | h | h | h | h
      · rw [he] at h; exact absurd h (by decide)
      · rw [he] at h; exact absurd h (by decide)
      · rw [he] at h; exact absurd h (by decide)
      · rw [he] at h; exact absurd h (by decide)
      · rw [he] at h; exact hpkg h
    · rw [List.mem_singleton] at hp
      subst hp
      simp
  · intro p hp
    have hkey : p.1 = "sign" ∨ p.1 = "appid" ∨ p.1 = "noncestr" ∨ p.1 = "timestamp" ∨
        p.1 = "productid" := by
      rcases mem_keys_dictUpdate (List.mem_map_of_mem Prod.fst hp) with h | h
      · exact Or.inl h
      · rcases mem_keys_paySignKwargs (mem_keys_dictOf h) with h2 | h2 | h2 | h2
        · exact Or.inr (Or.inl h2)
        · exact Or.inr (Or.inr (Or.inl h2))
        · exact Or.inr (Or.inr (Or.inr (Or.inl h2)))
        · simp only [List.map_cons, List.map_nil, List.mem_singleton] at h2
          exact Or.inr (Or.inr (Or.inr (Or.inr h2)))
    rcases hkey with h | h | h | h | h <;> rw [h] <;> exact ⟨by decide, by decide⟩
  · intro htr
    simp only [create_native_pay_url]
    rw [pay_sign_dict_ok true true [("productid", productid)] nonce ts htr]
    simp only [exceptBind_ok]
    rfl

/-- Witness for C10: with caller params {a: 1} the signed dict has no appkey
entry, and the native pay URL is the urlencoding of the secret-free signed
pair list. -/
theorem claim_C10_witness :
    dictLookup (dictOf (paySignKwargs ⟨"wx1", "s", Option.none, Option.none,
        Option.some "secret", Option.some "P", Option.some "K"⟩ true true
        [("a", PyVal.int 1)] "n" 7)) "appkey" = Option.none ∧
    create_native_pay_url ⟨"wx1", "s", Option.none, Option.none, Option.some "secret",
        Option.some "P", Option.some "K"⟩ (PyVal.str "5") "n" 7 =
      Except.ok ("weixin://wxpay/bizpayurl?" ++
        urlencodePairs (nativePaySignedDict ⟨"wx1", "s", Option.none, Option.none,
          Option.some "secret", Option.some "P", Option.some "K"⟩ (PyVal.str "5")
          "n" 7)) :=
  ⟨(claim_C10 ⟨"wx1", "s", Option.none, Option.none, Option.some "secret",
      Option.some "P", Option.some "K"⟩ true true [("a", PyVal.int 1)] "n" 7 []
      (PyVal.str "5") (by decide) (by decide)).1 _ _ _ rfl,
   (claim_C10 ⟨"wx1", "s", Option.none, Option.none, Option.some "secret",
      Option.some "P", Option.some "K"⟩ true true [("a", PyVal.int 1)] "n" 7 []
      (PyVal.str "5") (by decide) (by decide)).2.2.2 (by decide)⟩

end WeRobot
